import Mathlib

/-!
Verification development for the fjson library (src/fjson.h): a JSON value
model (class `Json` over a polymorphic `JsonValue` hierarchy) and a set of
hand-written character-level parsers (`_ParseValue`, `_ParseObject`,
`_ParseArray`, `_ParseString`, `_ParseNumber`).

The embedding below translates the C++ source function by function.
Conventions used throughout:
* `string_type` is `std::wstring`; its code units (`charT` = `wchar_t`,
  32-bit on the reference platform) are modelled as Lean `Char`.
  Inputs are `List charT`, iterator positions are `Nat` offsets from `begin`.
* Exceptions become `Except`.  A `ParseError` is represented by its offset
  (`GetOffset()`); the `processed_string_` diagnostic payload is not modelled
  (no property here depends on it).  In `_ParseArray` two catch blocks rethrow
  with an offset computed from an *uninitialized* local `i` (the assignment to
  `i` is what threw); that read is undefined behaviour, modelled as the
  indeterminate offset `none : Option Nat`.
* `JsonNumber` stores the `double` produced by `std::stod` on the scanned
  buffer.  Floating point conversion is outside the embedding; the number
  payload is modelled as the exact buffer handed to `std::stod`, which
  determines the double.
-/

namespace Fjson

/-- Source `using charT = string_type::value_type` (a 32-bit wide character). -/
abbrev charT := Char

/-- enum class JsonValueType. -/
inductive JsonValueType where
  | Number | Null | True | False | String | Array | Object | InvalidValue
deriving DecidableEq

/-- The `Json` value tree: a `Json` owns one `JsonValue` of some dynamic type
(JsonNull / JsonNumber / JsonTrue / JsonFalse / JsonString / JsonArray /
JsonObject / JsonInvalidValue).  `JNumber` carries the text buffer converted by
`std::stod`; `JObject` carries the `std::map<string_type, Json>` as a
key-sorted association list. -/
inductive Json where
  | JInvalid
  | JNull
  | JTrue
  | JFalse
  | JNumber (buf : List charT)
  | JString (s : List charT)
  | JArray (elems : List Json)
  | JObject (members : List (List charT × Json))

/-- Source `Json::GetType()` (dispatches to `JsonValue::GetType()`). -/
def GetType : Json → JsonValueType
  | .JInvalid => .InvalidValue
  | .JNull => .Null
  | .JTrue => .True
  | .JFalse => .False
  | .JNumber _ => .Number
  | .JString _ => .String
  | .JArray _ => .Array
  | .JObject _ => .Object

/-- Source `Json::IsTrue()`. -/
def IsTrue (j : Json) : Bool := GetType j = JsonValueType.True
/-- Source `Json::IsFalse()`. -/
def IsFalse (j : Json) : Bool := GetType j = JsonValueType.False
/-- Source `Json::IsObject()`. -/
def IsObject (j : Json) : Bool := GetType j = JsonValueType.Object
/-- Source `Json::IsArray()`. -/
def IsArray (j : Json) : Bool := GetType j = JsonValueType.Array

/-- The error classes thrown by accessors (`IncompatibleTypeError`,
`IndexTypeError`), identified by class; the message string is not modelled. -/
inductive JErr where
  | IncompatibleTypeError
  | IndexTypeError
deriving DecidableEq

/-- Source `Json::Json(bool value)`: `JsonTrue` when true, `JsonFalse` when false. -/
def JsonOfBool (value : Bool) : Json :=
  if value then .JTrue else .JFalse

/-- Source `Json::ToBool()`: returns the boolean for True/False tags, otherwise
throws `IncompatibleTypeError`. -/
def ToBool (j : Json) : Except JErr Bool :=
  if IsTrue j then .ok true
  else if IsFalse j then .ok false
  else .error .IncompatibleTypeError

/-- The comparator `std::less<string_type>`: lexicographic comparison of wide strings by
code unit, used by the `std::map` backing `JsonObject`. -/
def strLt : List charT → List charT → Bool
  | [], [] => false
  | [], _ :: _ => true
  | _ :: _, [] => false
  | a :: as, b :: bs => if a < b then true else if b < a then false else strLt as bs

/-- The map access `std::map<string_type, Json>::operator[]`: find the key in the sorted
member list, or insert a default-constructed `Json()` (= `JsonInvalidValue`)
at the sorted position; returns the mapped value and the updated map. -/
def mapGetOrInsert : List (List charT × Json) → List charT → Json × List (List charT × Json)
  | [], k => (.JInvalid, [(k, .JInvalid)])
  | (k', v) :: t, k =>
    if strLt k k' then (.JInvalid, (k, .JInvalid) :: (k', v) :: t)
    else if strLt k' k then
      let r := mapGetOrInsert t k
      (r.1, (k', v) :: r.2)
    else (v, (k', v) :: t)

/-- Source `Json::operator[](const string_type &key)` (non-const overload): valid
only on Object (else `IndexTypeError`); delegates to the map's `operator[]`,
which inserts an Invalid member on a missing key.  The returned reference is
modelled as the pair (member value, whole updated object). -/
def objIndexMut (j : Json) (key : List charT) : Except JErr (Json × Json) :=
  match j with
  | .JObject members =>
    let r := mapGetOrInsert members key
    .ok (r.1, .JObject r.2)
  | _ => .error .IndexTypeError

/-- Source `Json::operator[](const string_type &key) const`: although the overload is
const-qualified, `std::static_pointer_cast` on the member `shared_ptr` yields a
pointer to a *non-const* `JsonObject`, so `(*p)[key]` resolves to the same
inserting `std::map::operator[]` as the mutable overload. -/
def objIndexConst (j : Json) (key : List charT) : Except JErr (Json × Json) :=
  match j with
  | .JObject members =>
    let r := mapGetOrInsert members key
    .ok (r.1, .JObject r.2)
  | _ => .error .IndexTypeError

/-- Key lookup in a member list (observation function used to state what
`mapGetOrInsert` left behind). -/
def lookupKey : List (List charT × Json) → List charT → Option Json
  | [], _ => none
  | (k', v) :: t, k => if k' = k then some v else lookupKey t k

/-- The vector access `std::vector<Json>::operator[]` with the `int` index of
`Json::operator[](int)`: the index is converted to `size_type` and used
unchecked; any index outside `[0, size)` (negative indices included) is an
out-of-range access, undefined behaviour, modelled as `none`. -/
def vecAt (l : List Json) (i : Int) : Option Json :=
  if 0 ≤ i then l.get? i.toNat else none

/-- Source `Json::operator[](int index)` (const and non-const overloads are
identical): valid only on Array (else `IndexTypeError`); forwards the index
unchanged to the vector. -/
def arrIndex (j : Json) (i : Int) : Except JErr (Option Json) :=
  match j with
  | .JArray elems => .ok (vecAt elems i)
  | _ => .error .IndexTypeError

/-- Source `bool IsWhitespace(string_type::value_type c)`. -/
def IsWhitespace (c : charT) : Bool :=
  c = ' ' || c = '\t' || c = '\n' || c = '\r'

/-- Source `bool IsControlChar(string_type::value_type c)`. -/
def IsControlChar (c : charT) : Bool :=
  decide (c.toNat < 0x1f) || c = '\x7f' || (decide (0x80 < c.toNat) && decide (c.toNat < 0x9f))

/-- Source `constexpr bool IsDigit(charT c)`. -/
def IsDigit (c : charT) : Bool :=
  decide ('0' ≤ c) && decide (c ≤ '9')

/-- The classifier `isspace` in the "C" locale, used by `std::stoi` to skip leading
whitespace. -/
def isSpaceC (c : charT) : Bool :=
  c = ' ' || c = '\t' || c = '\n' || c = '\x0b' || c = '\x0c' || c = '\r'

/-- Value of one hexadecimal digit. -/
def hexVal (c : charT) : Option Nat :=
  if decide ('0' ≤ c) && decide (c ≤ '9') then some (c.toNat - '0'.toNat)
  else if decide ('a' ≤ c) && decide (c ≤ 'f') then some (c.toNat - 'a'.toNat + 10)
  else if decide ('A' ≤ c) && decide (c ≤ 'F') then some (c.toNat - 'A'.toNat + 10)
  else none

/-- Accumulate the value of the maximal leading run of hex digits. -/
def hexRun : List charT → Nat → Nat
  | [], acc => acc
  | c :: t, acc =>
    match hexVal c with
    | some v => hexRun t (acc * 16 + v)
    | none => acc

/-- The conversion `static_cast<charT>(stoi(str, nullptr, 16))` on the four characters after
`\u`: skip C-locale whitespace, take an optional sign, then require at least
one hex digit (otherwise `std::invalid_argument`, modelled as `none`), and
convert the digit run.  The cast to the 32-bit wide char is taken modulo
`2^32`; code points that are not Unicode scalar values collapse to NUL under
`Char.ofNat` (a modelling artifact no property here depends on; the `0x`
prefix tolerated by `strtol` with base 16 is likewise not modelled). -/
def stoiHexChar (s : List charT) : Option charT :=
  let s1 := s.dropWhile isSpaceC
  let signed : Bool × List charT :=
    match s1 with
    | '-' :: r => (true, r)
    | '+' :: r => (false, r)
    | _ => (false, s1)
  match signed.2 with
  | c :: _ =>
    match hexVal c with
    | some _ =>
      let v : Int := (if signed.1 then -1 else 1) * (hexRun signed.2 0 : Int)
      some (Char.ofNat ((v % ((2 : Int) ^ 32)).toNat))
    | none => none
  | [] => none

/-- The states of `_ParseString`. -/
inductive SStatus where
  | WAIT_QUOT1 | WAIT_QUOT2 | BACKSLASH_PENDING | COMPLETED
deriving DecidableEq

/-- The while loop of `_ParseString`, returning the machine state at loop
exit: final status, the accumulated `result` buffer, and the final iterator
offset `iter - begin`.  Every exit of the loop (input exhausted, `break` on
COMPLETED, every `goto complete`, and the `\u` conversion failure that throws
with offset `iter - begin`) is a return of this triple; the code after the
`complete:` label is `ParseString` below.  In the `\u` arm the source builds
`string_type(iter+1, iter+5)`, which reads past `end` when fewer than 4
characters remain (undefined behaviour); that case is modelled as the same
failure exit as a bad hex sequence. -/
def stringLoopFull : List charT → SStatus → List charT → Nat → SStatus × List charT × Nat
  | [], status, result, pos => (status, result, pos)
  | c :: t, status, result, pos =>
    match status with
    | .WAIT_QUOT1 =>
      if IsWhitespace c then stringLoopFull t .WAIT_QUOT1 result (pos + 1)
      else if c = '\"' then stringLoopFull t .WAIT_QUOT2 result (pos + 1)
      else (.WAIT_QUOT1, result, pos)
    | .WAIT_QUOT2 =>
      if IsControlChar c then (.WAIT_QUOT2, result, pos)
      else if c = '\"' then stringLoopFull t .COMPLETED result (pos + 1)
      else if c = '\\' then stringLoopFull t .BACKSLASH_PENDING result (pos + 1)
      else stringLoopFull t .WAIT_QUOT2 (result ++ [c]) (pos + 1)
    | .BACKSLASH_PENDING =>
      if c = '\\' ∨ c = '/' ∨ c = '\"' then
        stringLoopFull t .WAIT_QUOT2 (result ++ [c]) (pos + 1)
      else if c = 'b' then stringLoopFull t .WAIT_QUOT2 (result ++ ['\x08']) (pos + 1)
      else if c = 'f' then stringLoopFull t .WAIT_QUOT2 (result ++ ['\x0c']) (pos + 1)
      else if c = 'n' then stringLoopFull t .WAIT_QUOT2 (result ++ ['\n']) (pos + 1)
      else if c = 'r' then stringLoopFull t .WAIT_QUOT2 (result ++ ['\r']) (pos + 1)
      else if c = 't' then stringLoopFull t .WAIT_QUOT2 (result ++ ['\t']) (pos + 1)
      else if c = 'u' then
        match t with
        | h1 :: h2 :: h3 :: h4 :: rest =>
          match stoiHexChar [h1, h2, h3, h4] with
          | some ch => stringLoopFull rest .WAIT_QUOT2 (result ++ [ch]) (pos + 5)
          | none => (.BACKSLASH_PENDING, result, pos)
        | _ => (.BACKSLASH_PENDING, result, pos)
      else (.BACKSLASH_PENDING, result, pos)
    | .COMPLETED => (.COMPLETED, result, pos)

/-- Source `_ParseString`: run the state machine from `WAIT_QUOT1`; at the
`complete:` label, a COMPLETED status yields `Json(std::move(result))` and the
count `iter - begin`, any other status throws a `ParseError` with offset
`iter - begin`. -/
def ParseString (s : List charT) : Except Nat (List charT × Nat) :=
  match stringLoopFull s .WAIT_QUOT1 [] 0 with
  | (.COMPLETED, result, pos) => .ok (result, pos)
  | (_, _, pos) => .error pos

/-- The states of `_ParseNumber`. -/
inductive NStatus where
  | START | WAIT_DIGIT1 | WAIT_DIGIT2 | FRACTION | WAIT_FRACTION_DIGIT
  | WAIT_FRACTION_DIGIT_END | WAIT_E_DIGIT | WAIT_E_SIGN | WAIT_E_DIGIT_END
  | COMPLETED | BAD
deriving DecidableEq

/-- The `complete:` label of `_ParseNumber`: the listed statuses return
`std::stod` of the accumulated buffer `s` together with `iter - begin`; any
other status throws a `ParseError` with offset `iter - begin`. -/
def numberComplete (status : NStatus) (s : List charT) (pos : Nat) : Except Nat (List charT × Nat) :=
  match status with
  | .COMPLETED | .FRACTION | .WAIT_DIGIT2 | .WAIT_FRACTION_DIGIT_END | .WAIT_E_DIGIT_END =>
    .ok (s, pos)
  | _ => .error pos

/-- The while loop of `_ParseNumber`.  The two `continue` transitions that
re-examine the current character in a new state (START → WAIT_DIGIT1 on a
digit, WAIT_E_SIGN → WAIT_E_DIGIT on a digit) are inlined one step, exactly as
the re-dispatch would run them.  `goto add_char` appends the character to the
buffer `s` before advancing; `goto next_iter` advances without appending (note
that the FRACTION state advances over `.`, `e`, `E` without appending them). -/
def numberLoop : List charT → NStatus → List charT → Nat → Except Nat (List charT × Nat)
  | [], status, s, pos => numberComplete status s pos
  | c :: t, status, s, pos =>
    match status with
    | .START =>
      if IsWhitespace c then numberLoop t .START s (pos + 1)
      else if c = '-' then numberLoop t .WAIT_DIGIT1 (s ++ [c]) (pos + 1)
      else if IsDigit c then
        -- `status = WAIT_DIGIT1; continue;` re-runs WAIT_DIGIT1 on this digit:
        if c = '0' then numberLoop t .FRACTION (s ++ [c]) (pos + 1)
        else numberLoop t .WAIT_DIGIT2 (s ++ [c]) (pos + 1)
      else numberComplete .BAD s pos
    | .WAIT_DIGIT1 =>
      if c = '0' then numberLoop t .FRACTION (s ++ [c]) (pos + 1)
      else if IsDigit c then numberLoop t .WAIT_DIGIT2 (s ++ [c]) (pos + 1)
      else numberComplete .BAD s pos
    | .WAIT_DIGIT2 =>
      if IsDigit c then numberLoop t .WAIT_DIGIT2 (s ++ [c]) (pos + 1)
      else if c = '.' then numberLoop t .WAIT_FRACTION_DIGIT (s ++ [c]) (pos + 1)
      else if c = 'e' ∨ c = 'E' then numberLoop t .WAIT_E_SIGN (s ++ [c]) (pos + 1)
      else if IsWhitespace c then numberLoop t .COMPLETED s (pos + 1)
      else numberComplete .WAIT_DIGIT2 s pos
    | .FRACTION =>
      if c = '.' then numberLoop t .WAIT_FRACTION_DIGIT s (pos + 1)
      else if c = 'e' ∨ c = 'E' then numberLoop t .WAIT_E_SIGN s (pos + 1)
      else if IsWhitespace c then numberLoop t .COMPLETED s (pos + 1)
      else numberComplete .BAD s pos
    | .WAIT_FRACTION_DIGIT =>
      if IsDigit c then numberLoop t .WAIT_FRACTION_DIGIT_END (s ++ [c]) (pos + 1)
      else numberComplete .BAD s pos
    | .WAIT_FRACTION_DIGIT_END =>
      if IsDigit c then numberLoop t .WAIT_FRACTION_DIGIT_END (s ++ [c]) (pos + 1)
      else if c = 'e' ∨ c = 'E' then numberLoop t .WAIT_E_SIGN (s ++ [c]) (pos + 1)
      else if IsWhitespace c ∨ c = ',' then numberComplete .COMPLETED s pos
      else numberComplete .BAD s pos
    | .WAIT_E_SIGN =>
      if IsDigit c then
        -- `status = WAIT_E_DIGIT; continue;` re-runs WAIT_E_DIGIT on this digit:
        numberLoop t .WAIT_E_DIGIT_END (s ++ [c]) (pos + 1)
      else if c = '-' ∨ c = '+' then numberLoop t .WAIT_E_DIGIT (s ++ [c]) (pos + 1)
      else numberComplete .BAD s pos
    | .WAIT_E_DIGIT =>
      if IsDigit c then numberLoop t .WAIT_E_DIGIT_END (s ++ [c]) (pos + 1)
      else numberComplete .BAD s pos
    | .WAIT_E_DIGIT_END =>
      if IsDigit c then numberLoop t .WAIT_E_DIGIT_END (s ++ [c]) (pos + 1)
      else if IsWhitespace c ∨ c = ',' then numberComplete .COMPLETED s pos
      else numberComplete .BAD s pos
    | st => numberComplete st s pos

/-- Source `_ParseNumber`: run the state machine from START on an empty buffer. -/
def ParseNumber (input : List charT) : Except Nat (List charT × Nat) :=
  numberLoop input .START [] 0

/-- Observation function for `_ParseNumber`: run the loop of `numberLoop`
over a prefix, following exactly its continue branches (consuming one
character each step, with the two same-character re-dispatches inlined the
same way); return the machine configuration (status, buffer) reached after
the whole prefix is consumed with the loop still running, or `none` if the
loop would exit (goto complete / break) somewhere inside the prefix.  This
lets a theorem quantify over every input that drives the scanner into a given
state. -/
def numberSteps : List charT → NStatus → List charT → Option (NStatus × List charT)
  | [], status, s => some (status, s)
  | c :: t, status, s =>
    match status with
    | .START =>
      if IsWhitespace c then numberSteps t .START s
      else if c = '-' then numberSteps t .WAIT_DIGIT1 (s ++ [c])
      else if IsDigit c then
        if c = '0' then numberSteps t .FRACTION (s ++ [c])
        else numberSteps t .WAIT_DIGIT2 (s ++ [c])
      else none
    | .WAIT_DIGIT1 =>
      if c = '0' then numberSteps t .FRACTION (s ++ [c])
      else if IsDigit c then numberSteps t .WAIT_DIGIT2 (s ++ [c])
      else none
    | .WAIT_DIGIT2 =>
      if IsDigit c then numberSteps t .WAIT_DIGIT2 (s ++ [c])
      else if c = '.' then numberSteps t .WAIT_FRACTION_DIGIT (s ++ [c])
      else if c = 'e' ∨ c = 'E' then numberSteps t .WAIT_E_SIGN (s ++ [c])
      else if IsWhitespace c then numberSteps t .COMPLETED s
      else none
    | .FRACTION =>
      if c = '.' then numberSteps t .WAIT_FRACTION_DIGIT s
      else if c = 'e' ∨ c = 'E' then numberSteps t .WAIT_E_SIGN s
      else if IsWhitespace c then numberSteps t .COMPLETED s
      else none
    | .WAIT_FRACTION_DIGIT =>
      if IsDigit c then numberSteps t .WAIT_FRACTION_DIGIT_END (s ++ [c])
      else none
    | .WAIT_FRACTION_DIGIT_END =>
      if IsDigit c then numberSteps t .WAIT_FRACTION_DIGIT_END (s ++ [c])
      else if c = 'e' ∨ c = 'E' then numberSteps t .WAIT_E_SIGN (s ++ [c])
      else none
    | .WAIT_E_SIGN =>
      if IsDigit c then numberSteps t .WAIT_E_DIGIT_END (s ++ [c])
      else if c = '-' ∨ c = '+' then numberSteps t .WAIT_E_DIGIT (s ++ [c])
      else none
    | .WAIT_E_DIGIT =>
      if IsDigit c then numberSteps t .WAIT_E_DIGIT_END (s ++ [c])
      else none
    | .WAIT_E_DIGIT_END =>
      if IsDigit c then numberSteps t .WAIT_E_DIGIT_END (s ++ [c])
      else none
    | _ => none

/-- Factorization: if the scanner consumes a prefix `p` and is left running
in configuration `(st2, buf2)`, then running `_ParseNumber`'s loop on
`p ++ rest` is the same as running it on `rest` from that configuration,
with the position advanced by `p.length`. -/
theorem numberLoop_steps :
    ∀ (p : List charT) (st : NStatus) (buf : List charT) (st2 : NStatus) (buf2 : List charT),
      numberSteps p st buf = some (st2, buf2) →
      ∀ (rest : List charT) (pos : Nat),
        numberLoop (p ++ rest) st buf pos = numberLoop rest st2 buf2 (pos + p.length) := by
  intro p st buf
  induction p, st, buf using numberSteps.induct <;> intro st2 buf2 h rest pos <;>
    (try simp_all [numberSteps]) <;>
    (rw [numberLoop.eq_def] <;>
     simp_all [Nat.add_comm, Nat.add_assoc, Nat.add_left_comm])

/-- The iterator of `_ParseString` never moves backwards: the final offset is
at least the starting offset. -/
theorem stringLoopFull_pos_le (s : List charT) (st : SStatus) (acc : List charT) (pos : Nat) :
    pos ≤ (stringLoopFull s st acc pos).2.2 := by
  induction s, st, acc, pos using stringLoopFull.induct <;>
    (rw [stringLoopFull.eq_def]; (try simp_all); (try omega))

/-- Offsets in `_ParseString` are relative to its `begin`: starting the scan
`k` positions later shifts the final offset by `k` and changes nothing else. -/
theorem stringLoopFull_shift (s : List charT) (st : SStatus) (acc : List charT) (pos : Nat) :
    ∀ k, stringLoopFull s st acc (k + pos) =
      ((stringLoopFull s st acc pos).1, (stringLoopFull s st acc pos).2.1,
        k + (stringLoopFull s st acc pos).2.2) := by
  induction s, st, acc, pos using stringLoopFull.induct <;> intro k <;>
    (rw [stringLoopFull.eq_def]; rw [stringLoopFull.eq_def]; (try simp_all [Nat.add_assoc]))

/-- A successful `_ParseString` consumed at least one character (the opening
quote). -/
theorem ParseString_ok_one_le {s v : List charT} {n : Nat}
    (h : ParseString s = .ok (v, n)) : 1 ≤ n := by
  rcases hr : stringLoopFull s .WAIT_QUOT1 [] 0 with ⟨st, res, p⟩
  unfold ParseString at h
  rw [hr] at h
  cases st <;> simp at h
  obtain ⟨rfl, rfl⟩ := h
  cases s with
  | nil =>
    rw [stringLoopFull.eq_def] at hr
    simp at hr
  | cons c t =>
    rw [stringLoopFull.eq_def] at hr
    simp only [] at hr
    split at hr
    · have := stringLoopFull_pos_le t .WAIT_QUOT1 [] (0 + 1)
      rw [hr] at this
      simpa using this
    · split at hr
      · have := stringLoopFull_pos_le t .WAIT_QUOT2 [] (0 + 1)
        rw [hr] at this
        simpa using this
      · simp at hr

/-- The states of `_ParseArray`. -/
inductive AStatus where
  | WAIT_LBRACKET | WAIT_RBRACKET | COMPLETED
deriving DecidableEq

/-- The states of `_ParseObject`. -/
inductive OStatus where
  | WAIT_LBRACE | WAIT_STRING1 | WAIT_STRING2 | WAIT_COLON | WAIT_RBRACE_COMMA | COMPLETED
deriving DecidableEq

mutual

/-- The while loop of `_ParseArray`, with `elems` the contents of the vector
`json` being built.  Error offsets are `Option Nat`: the catch blocks for a
failed nested `_ParseValue` rethrow with `iter - begin + i` (resp. `+ i + 1`)
where the local `i` was never assigned (the assignment threw), so the offset
of those errors reads an uninitialized variable — undefined behaviour,
modelled as `none`.  Notes on control flow, all direct from the source:
whitespace at the top of the loop does `++iter; break;` and so *exits* the
loop; a successful nested value parse resumes at `iter + i + 1`; the closing
`]` does `goto complete` without consuming itself, so the returned count is
the offset *of* `]`; any character that matches no case falls through to
`next_iter` and is skipped. -/
def arrayLoop : List charT → AStatus → Nat → List Json → Except (Option Nat) (List Json × Nat)
  | [], status, pos, elems =>
    if status = .COMPLETED then .ok (elems, pos) else .error (some pos)
  | c :: t, status, pos, elems =>
    if IsWhitespace c then
      -- `++iter; break;` → falls through to the complete label
      if status = .COMPLETED then .ok (elems, pos + 1) else .error (some (pos + 1))
    else match status with
    | .WAIT_LBRACKET =>
      if c = '[' then
        -- json = Json(Array); json.resize(1); i = _ParseValue(json[0], iter+1, end)
        match ParseValue t 0 with
        | .ok (v, i) => arrayLoop (t.drop i) .WAIT_RBRACKET (pos + i + 1) [v]
        | .error _ => .error none  -- offset `iter - begin + i` with `i` uninitialized
      else .error (some pos)  -- default: goto complete with status ≠ COMPLETED
    | .WAIT_RBRACKET =>
      if c = ']' then .ok (elems, pos)  -- status = COMPLETED; goto complete (']' not consumed)
      else if c = ',' then
        -- json.resize(size+1); i = _ParseValue(json[size-1], iter+1, end)
        match ParseValue t 0 with
        | .ok (v, i) => arrayLoop (t.drop i) .WAIT_RBRACKET (pos + i + 1) (elems ++ [v])
        | .error _ => .error none  -- offset `iter - begin + i + 1` with `i` uninitialized
      else arrayLoop t .WAIT_RBRACKET (pos + 1) elems  -- no matching case: next_iter
    | .COMPLETED => .ok (elems, pos)  -- else branch: goto complete
termination_by s _ _ _ => (s.length, 0)
decreasing_by
  all_goals simp_wf
  all_goals first
  | (apply Prod.Lex.right; omega)
  | (apply Prod.Lex.left; simp [List.length_drop]; omega)
  | (apply Prod.Lex.left; omega)

/-- The while loop of `_ParseObject`.  `key`/`value` are the local `Json`
variables the sub-parses assign to; they are threaded faithfully but never
stored anywhere: the function's `json` output is set to a fresh empty Object
before the loop and never touched again.  (In `WAIT_RBRACE_COMMA` the source
reads `status == WAIT_STRING2;`, an effect-free comparison, so a `,` leaves
the state unchanged; characters matching no case fall through to `next_iter`.)
Whitespace anywhere is skipped; nested-parse failures are rethrown with the
offset translated by the current position. -/
def objectLoop : List charT → OStatus → Nat → Json → Json → Except (Option Nat) Nat
  | [], status, pos, _, _ =>
    if status = .COMPLETED then .ok pos else .error (some pos)
  | c :: t, status, pos, key, value =>
    if IsWhitespace c then objectLoop t status (pos + 1) key value
    else match status with
    | .WAIT_LBRACE =>
      if c = '{' then objectLoop t .WAIT_STRING1 (pos + 1) key value
      else .error (some pos)  -- goto complete with status ≠ COMPLETED
    | .WAIT_STRING1 =>
      if c = '}' then objectLoop t .COMPLETED (pos + 1) key value  -- empty object
      else
        match hps : ParseString (c :: t) with
        | .ok (k, i) => objectLoop ((c :: t).drop i) .WAIT_COLON (pos + i) (.JString k) value
        | .error e => .error (some (pos + e))  -- rethrow: iter - begin + e.GetOffset()
    | .WAIT_STRING2 =>
      match hps : ParseString (c :: t) with
      | .ok (k, i) => objectLoop ((c :: t).drop i) .WAIT_COLON (pos + i) (.JString k) value
      | .error e => .error (some (pos + e))
    | .WAIT_COLON =>
      if c = ':' then
        -- ++iter; i = _ParseValue(value, iter, end)
        match ParseValue t 0 with
        | .ok (v, i) => objectLoop (t.drop i) .WAIT_RBRACE_COMMA (pos + 1 + i) key v
        | .error e => .error (e.map fun x => pos + 1 + x)
      else .error (some pos)  -- goto complete with status ≠ COMPLETED
    | .WAIT_RBRACE_COMMA =>
      if c = ',' then objectLoop t .WAIT_RBRACE_COMMA (pos + 1) key value
      else if c = '}' then objectLoop t .COMPLETED (pos + 1) key value
      else objectLoop t .WAIT_RBRACE_COMMA (pos + 1) key value  -- next_iter
    | .COMPLETED => .ok pos  -- break → complete → return iter - begin
termination_by s _ _ _ _ => (s.length, 0)
decreasing_by
  all_goals simp_wf
  all_goals first
  | (apply Prod.Lex.right; omega)
  | (apply Prod.Lex.left
     have h1 : 1 ≤ i := ParseString_ok_one_le hps
     simp [List.length_drop]
     omega)
  | (apply Prod.Lex.left; simp [List.length_drop]; omega)
  | (apply Prod.Lex.left; omega)

/-- Source `_ParseValue` with the loop position `iter - begin` made explicit (the
top-level call is at position 0).  Dispatches on the first character that is
neither whitespace nor unknown (characters matching no `case` label fall
through to `next_iter` and are silently skipped).  Sub-parsers are called on
the remaining span and compute offsets relative to their own `begin`; on
success `iter += i` and the count `iter - begin` is returned, on failure
`i = e.GetOffset(); iter += i;` and `iter - begin` is thrown (`none`
propagates an indeterminate offset).  For the fixed literals the matched
keyword sets `completed` and `break`s out of the switch and then out of the
loop *without* advancing `iter`, so the returned count is the offset of the
literal's first character. -/
def ParseValue : List charT → Nat → Except (Option Nat) (Json × Nat)
  | [], pos => .error (some pos)
  | c :: t, pos =>
    if IsWhitespace c then ParseValue t (pos + 1)
    else if c = '{' then
      match objectLoop (c :: t) .WAIT_LBRACE 0 .JInvalid .JInvalid with
      | .ok i => .ok (.JObject [], pos + i)  -- json was set to the (still empty) object
      | .error (some e) => .error (some (pos + e))
      | .error none => .error none
    else if c = '[' then
      match arrayLoop (c :: t) .WAIT_LBRACKET 0 [] with
      | .ok (elems, i) => .ok (.JArray elems, pos + i)
      | .error (some e) => .error (some (pos + e))
      | .error none => .error none
    else if c = '\"' then
      match ParseString (c :: t) with
      | .ok (str, i) => .ok (.JString str, pos + i)
      | .error e => .error (some (pos + e))
    else if c = 't' then
      if t.take 3 = ['r', 'u', 'e'] then .ok (.JTrue, pos)
      else .error (some pos)  -- goto complete, completed still false
    else if c = 'f' then
      if t.take 4 = ['a', 'l', 's', 'e'] then .ok (.JFalse, pos)
      else .error (some pos)
    else if c = 'n' then
      if t.take 3 = ['u', 'l', 'l'] then .ok (.JNull, pos)
      else .error (some pos)
    else if IsDigit c ∨ c = '-' then
      match ParseNumber (c :: t) with
      | .ok (buf, i) => .ok (.JNumber buf, pos + i)
      | .error e => .error (some (pos + e))
    else ParseValue t (pos + 1)  -- no case label matches: next_iter
termination_by s _ => (s.length, 1)
decreasing_by
  all_goals simp_wf
  all_goals first
  | (apply Prod.Lex.right; omega)
  | (apply Prod.Lex.left; omega)

end

/-- Source `_ParseArray`: the vector contents become a `JsonArray`. -/
def ParseArray (s : List charT) : Except (Option Nat) (Json × Nat) :=
  match arrayLoop s .WAIT_LBRACKET 0 [] with
  | .ok (elems, n) => .ok (.JArray elems, n)
  | .error e => .error e

/-- Source `_ParseObject`: `json = Json(JsonValueType::Object)` before the loop and
is never written afterwards, so a successful parse always returns the empty
object together with the count `iter - begin`. -/
def ParseObject (s : List charT) : Except (Option Nat) (Json × Nat) :=
  match objectLoop s .WAIT_LBRACE 0 .JInvalid .JInvalid with
  | .ok n => .ok (.JObject [], n)
  | .error e => .error e

/-- Source `_ParseValue` skips leading whitespace one character per loop iteration,
so a run of whitespace in front of the input only advances the position. -/
theorem ParseValue_ws (ws : List charT) (h : ∀ c ∈ ws, IsWhitespace c = true) :
    ∀ (s : List charT) (pos : Nat), ParseValue (ws ++ s) pos = ParseValue s (pos + ws.length) := by
  induction ws with
  | nil => simp
  | cons c w ih =>
    intro s pos
    rw [List.cons_append, ParseValue.eq_def]
    have hc : IsWhitespace c = true := h c (by simp)
    simp only [hc, if_true, if_pos]
    rw [ih (fun d hd => h d (by simp [hd])) s (pos + 1)]
    congr 1
    simp
    omega

/-- The START state of `_ParseNumber` skips leading whitespace the same way. -/
theorem numberLoop_ws (ws : List charT) (h : ∀ c ∈ ws, IsWhitespace c = true) :
    ∀ (s buf : List charT) (pos : Nat),
      numberLoop (ws ++ s) .START buf pos = numberLoop s .START buf (pos + ws.length) := by
  induction ws with
  | nil => simp
  | cons c w ih =>
    intro s buf pos
    rw [List.cons_append, numberLoop.eq_def]
    have hc : IsWhitespace c = true := h c (by simp)
    simp only [hc, if_true, if_pos]
    rw [ih (fun d hd => h d (by simp [hd])) s buf (pos + 1)]
    congr 1
    simp
    omega

/-- Once `_ParseNumber` is in COMPLETED the loop breaks at the next iteration
and the `complete:` label accepts, whatever input remains. -/
theorem numberLoop_completed (s buf : List charT) (pos : Nat) :
    numberLoop s .COMPLETED buf pos = .ok (buf, pos) := by
  cases s <;> simp [numberLoop, numberComplete]

/-- The WAIT_QUOT1 state of `_ParseString` skips leading whitespace. -/
theorem stringLoopFull_ws (ws : List charT) (h : ∀ c ∈ ws, IsWhitespace c = true) :
    ∀ (t acc : List charT) (pos : Nat),
      stringLoopFull (ws ++ t) .WAIT_QUOT1 acc pos = stringLoopFull t .WAIT_QUOT1 acc (pos + ws.length) := by
  induction ws with
  | nil => simp
  | cons c w ih =>
    intro t acc pos
    rw [List.cons_append, stringLoopFull.eq_def]
    have hc : IsWhitespace c = true := h c (by simp)
    simp only [hc, if_true, if_pos]
    rw [ih (fun d hd => h d (by simp [hd])) t acc (pos + 1)]
    congr 1
    simp
    omega

/-- A digit is not one of the whitespace characters. -/
theorem IsDigit_not_ws {c : charT} (h : IsDigit c = true) : IsWhitespace c = false := by
  cases hw : IsWhitespace c
  · rfl
  · simp [IsWhitespace] at hw
    rcases hw with ((rfl | rfl) | rfl) | rfl <;> exact absurd h (by decide)

/-- A digit is none of the number parser's structural characters. -/
theorem IsDigit_ne {c : charT} (h : IsDigit c = true) :
    c ≠ '.' ∧ c ≠ 'e' ∧ c ≠ 'E' ∧ c ≠ ',' := by
  refine ⟨?_, ?_, ?_, ?_⟩ <;> rintro rfl <;> exact absurd h (by decide)

/-- The `std::less` trichotomy: two strings neither of which is less than the
other are equal. -/
theorem strLt_eq_of_not_lt : ∀ (a b : List charT), strLt a b = false → strLt b a = false → a = b := by
  intro a
  induction a with
  | nil =>
    intro b h1 _
    cases b with
    | nil => rfl
    | cons d bs => simp [strLt] at h1
  | cons c as ih =>
    intro b h1 h2
    cases b with
    | nil => simp [strLt] at h2
    | cons d bs =>
      by_cases hcd : c < d
      · simp [strLt, hcd] at h1
      · by_cases hdc : d < c
        · simp [strLt, hdc] at h2
        · have hw : c = d := le_antisymm (not_lt.mp hdc) (not_lt.mp hcd)
          subst hw
          simp [strLt, hcd] at h1 h2
          rw [ih bs h1 h2]

/-- Claim C1: `_ParseObject` on `{"test": "test2"}` returns successfully with
count 17, but the resulting value is the *empty* object: the parsed key and
value live only in the local variables `key`/`value` and are never inserted
into `json`, so no member `"test"` exists in the result (the repository's own
test `JsonTest.JsonParseObject` asserts that `json["test"]` is the string
`"test2"`, which this result cannot satisfy: the lookup finds no member). -/
theorem c1_object_member_dropped :
    ParseObject ['{', '\"', 't', 'e', 's', 't', '\"', ':', ' ', '\"', 't', 'e', 's', 't', '2', '\"', '}']
      = .ok (.JObject [], 17)
  ∧ lookupKey ([] : List (List charT × Json)) ['t', 'e', 's', 't'] = none := by
  constructor
  · simp [ParseObject, objectLoop, ParseValue, ParseString, stringLoopFull,
      IsWhitespace, IsControlChar]
  · rfl

/-- Claim C2, counterexample: on an Object without the key `"k"`, the const
string-index operator does not fail and does not leave the object unchanged:
it returns an Invalid value and the object has gained the member. -/
theorem c2_const_index_inserts_cex :
    objIndexConst (.JObject []) ['k'] = .ok (.JInvalid, .JObject [(['k'], .JInvalid)])
  ∧ Json.JObject [(['k'], Json.JInvalid)] ≠ .JObject [] := by
  refine ⟨rfl, ?_⟩
  simp

/-- Claim C2, amended: for every Object and every key absent from it, the
const string-key indexing operator behaves exactly like the mutable one —
it inserts the member with an Invalid payload (growing the object by one
member) and returns that Invalid value; it does not fail. -/
theorem c2_const_index_get_or_insert (l : List (List charT × Json)) (k : List charT)
    (h : ∀ p ∈ l, p.1 ≠ k) :
    ∃ l', objIndexConst (.JObject l) k = .ok (.JInvalid, .JObject l')
      ∧ lookupKey l' k = some .JInvalid
      ∧ l'.length = l.length + 1
      ∧ objIndexMut (.JObject l) k = objIndexConst (.JObject l) k := by
  have key : ∀ m : List (List charT × Json), (∀ p ∈ m, p.1 ≠ k) →
      (mapGetOrInsert m k).1 = .JInvalid
        ∧ lookupKey (mapGetOrInsert m k).2 k = some .JInvalid
        ∧ (mapGetOrInsert m k).2.length = m.length + 1 := by
    intro m
    induction m with
    | nil => intro _; simp [mapGetOrInsert, lookupKey]
    | cons p t ih =>
      intro hm
      obtain ⟨k', v⟩ := p
      have hne : k' ≠ k := hm (k', v) (by simp)
      by_cases h1 : strLt k k' = true
      · simp [mapGetOrInsert, h1, lookupKey]
      · by_cases h2 : strLt k' k = true
        · have ht := ih (fun q hq => hm q (by simp [hq]))
          simp [mapGetOrInsert, h1, h2, lookupKey, hne, ht.1, ht.2.1, ht.2.2]
        · exact absurd (strLt_eq_of_not_lt k' k (by simpa using h2) (by simpa using h1)) hne
  obtain ⟨h1, h2, h3⟩ := key l h
  exact ⟨(mapGetOrInsert l k).2, by simp [objIndexConst, h1], h2, h3, rfl⟩

/-- Claim C2, amended, witness at the empty object and key `"k"`. -/
theorem c2_const_index_get_or_insert_witness :
    (∀ p ∈ ([] : List (List charT × Json)), p.1 ≠ ['k'])
  ∧ (∃ l', objIndexConst (.JObject []) ['k'] = .ok (.JInvalid, .JObject l')
      ∧ lookupKey l' ['k'] = some .JInvalid
      ∧ l'.length = ([] : List (List charT × Json)).length + 1
      ∧ objIndexMut (.JObject []) ['k'] = objIndexConst (.JObject []) ['k']) :=
  ⟨by simp, c2_const_index_get_or_insert [] ['k'] (by simp)⟩

/-- Claim C3, counterexample: `_ParseArray` on `[]` does not succeed — it
throws a `ParseError` (whose offset was computed from an uninitialized
variable, hence indeterminate). -/
theorem c3_empty_array_cex : ParseArray ['[', ']'] = .error none := by
  simp [ParseArray, arrayLoop, ParseValue, IsWhitespace, IsDigit]

/-- Claim C3, amended: `_ParseArray` on `[]` fails: after `[` it
unconditionally attempts a nested `_ParseValue` parse between the brackets,
which fails on `]` (at relative offset 1), and the catch block rethrows with
an offset read from an uninitialized variable. Empty arrays are not
accepted. -/
theorem c3_empty_array_rejected :
    ParseArray ['[', ']'] = .error none ∧ ParseValue [']'] 0 = .error (some 1) := by
  constructor
  · simp [ParseArray, arrayLoop, ParseValue, IsWhitespace, IsDigit]
  · simp [ParseValue, IsWhitespace, IsDigit]

/-- Claim C8, counterexample: on the 3-element array `[null, true, false]`,
indexing with `-1` performs an out-of-range vector access (no element),
while `a[2]` is the last element — they do not refer to the same element. -/
theorem c8_negative_index_cex :
    arrIndex (.JArray [.JNull, .JTrue, .JFalse]) (-1) = .ok none
  ∧ arrIndex (.JArray [.JNull, .JTrue, .JFalse]) 2 = .ok (some .JFalse)
  ∧ (Option.none : Option Json) ≠ some .JFalse := by
  refine ⟨rfl, rfl, by simp⟩

/-- Claim C8, amended: negative integer indices on an Array are not remapped
to address from the end; the `int` index is forwarded unchecked to the
underlying vector, so every negative index is an out-of-range access
(undefined behaviour, no element), and the last element is reached only with
index `size - 1`. -/
theorem c8_negative_index_out_of_range (l : List Json) (i : Int)
    (hi : i < 0) (hl : 0 < l.length) :
    arrIndex (.JArray l) i = .ok none
  ∧ arrIndex (.JArray l) ((l.length : Int) - 1) = .ok (l.get? (l.length - 1)) := by
  constructor
  · have hneg : ¬ ((0 : Int) ≤ i) := by omega
    simp only [arrIndex, vecAt]
    rw [if_neg hneg]
  · have h0 : (0 : Int) ≤ (l.length : Int) - 1 := by omega
    have h1 : ((l.length : Int) - 1).toNat = l.length - 1 := by omega
    simp only [arrIndex, vecAt]
    rw [if_pos h0, h1]

/-- Claim C8, amended, witness on the 3-element array `[null, true, false]`
with index `-1`. -/
theorem c8_negative_index_out_of_range_witness :
    ((-1 : Int) < 0 ∧ 0 < [Json.JNull, Json.JTrue, Json.JFalse].length)
  ∧ (arrIndex (.JArray [.JNull, .JTrue, .JFalse]) (-1) = .ok none
      ∧ arrIndex (.JArray [.JNull, .JTrue, .JFalse]) (([Json.JNull, Json.JTrue, Json.JFalse].length : Int) - 1)
          = .ok ([Json.JNull, Json.JTrue, Json.JFalse].get? ([Json.JNull, Json.JTrue, Json.JFalse].length - 1))) :=
  ⟨⟨by decide, by decide⟩,
    c8_negative_index_out_of_range [.JNull, .JTrue, .JFalse] (-1) (by decide) (by decide)⟩

/-- Claim C10: `Json(bool)` produces the True tag for `true` and the False
tag for `false`, and `ToBool` recovers exactly the constructing boolean. -/
theorem c10_bool_roundtrip : ∀ b : Bool,
    GetType (JsonOfBool b) = (if b then JsonValueType.True else JsonValueType.False)
  ∧ ToBool (JsonOfBool b) = .ok b := by
  intro b
  cases b <;> exact ⟨rfl, rfl⟩

/-- Claim C4, counterexample: `_ParseValue` on the input `true` succeeds, but
the returned count is 0 — the offset of the literal's first character — not
the 4 characters of the keyword the claim requires. -/
theorem c4_literal_count_cex :
    ParseValue ['t', 'r', 'u', 'e'] 0 = .ok (.JTrue, 0)
  ∧ ParseValue ['t', 'r', 'u', 'e'] 0 ≠ .ok (.JTrue, 4) := by
  constructor
  · simp [ParseValue, IsWhitespace]
  · simp [ParseValue, IsWhitespace]

/-- Claim C4, amended: when `_ParseValue` succeeds via a fixed literal
(`true`, `false` or `null`), the returned count is exactly the number of
leading whitespace characters skipped — the offset of the literal's first
character — and does not include the 4 or 5 characters of the keyword
(the loop `break`s out before advancing `iter` over the literal). -/
theorem c4_literal_count (ws rest : List charT) (h : ∀ c ∈ ws, IsWhitespace c = true) :
    ParseValue (ws ++ 't' :: 'r' :: 'u' :: 'e' :: rest) 0 = .ok (.JTrue, ws.length)
  ∧ ParseValue (ws ++ 'f' :: 'a' :: 'l' :: 's' :: 'e' :: rest) 0 = .ok (.JFalse, ws.length)
  ∧ ParseValue (ws ++ 'n' :: 'u' :: 'l' :: 'l' :: rest) 0 = .ok (.JNull, ws.length) := by
  refine ⟨?_, ?_, ?_⟩ <;> rw [ParseValue_ws ws h] <;> simp [ParseValue, IsWhitespace]

/-- Claim C4, amended, witness: one space of leading whitespace before each
literal; the count is 1 in each case. -/
theorem c4_literal_count_witness :
    (∀ c ∈ [' '], IsWhitespace c = true)
  ∧ (ParseValue [' ', 't', 'r', 'u', 'e'] 0 = .ok (.JTrue, 1)
      ∧ ParseValue [' ', 'f', 'a', 'l', 's', 'e'] 0 = .ok (.JFalse, 1)
      ∧ ParseValue [' ', 'n', 'u', 'l', 'l'] 0 = .ok (.JNull, 1)) :=
  ⟨by decide, by simpa using c4_literal_count [' '] [] (by decide)⟩

/-- Claim C5, counterexample: with the complete numeral `12` scanned, the
next character `a` does not cause a number syntax error at its offset — the
parse *succeeds* with count 2; and a trailing space after `12` is consumed,
so the returned count 3 includes the delimiter. -/
theorem c5_delimiter_cex :
    ParseNumber ['1', '2', 'a'] = .ok (['1', '2'], 2)
  ∧ ((.ok (['1', '2'], 2) : Except Nat (List charT × Nat)) ≠ .error 2)
  ∧ ParseNumber ['1', '2', ' '] = .ok (['1', '2'], 3) := by
  refine ⟨rfl, by simp, rfl⟩

/-- Claim C5, amended: for every numeral prefix that drives the scanner into
an accepting state (hypothesis: `numberSteps` consumes the prefix and leaves
the machine running in state `st` with buffer `buf`), the claimed delimiter
behaviour holds only in the fraction-digit and exponent-digit accepting
states: there, a next character that is whitespace or `,` terminates
successfully without being consumed and any other non-numeral character fails
at its offset (= the prefix length).  In the integer-digit state WAIT_DIGIT2,
every non-numeral character terminates *successfully*: whitespace is consumed
(the count includes it) and any other character is left unconsumed with no
error.  After a lone leading `0` (FRACTION state), whitespace terminates
successfully (consumed) but any other non-numeral character — `,` included —
fails at its offset. -/
theorem c5_delimiter_by_state (p buf : List charT) (st : NStatus) (c : charT) (rest : List charT)
    (hscan : numberSteps p .START [] = some (st, buf))
    (h1 : IsDigit c = false) (h2 : c ≠ '.') (h3 : c ≠ 'e') (h4 : c ≠ 'E') :
    (st = .WAIT_FRACTION_DIGIT_END ∨ st = .WAIT_E_DIGIT_END →
      ParseNumber (p ++ c :: rest)
        = if IsWhitespace c = true ∨ c = ',' then .ok (buf, p.length) else .error p.length)
  ∧ (st = .WAIT_DIGIT2 →
      ParseNumber (p ++ c :: rest)
        = if IsWhitespace c = true then .ok (buf, p.length + 1) else .ok (buf, p.length))
  ∧ (st = .FRACTION →
      ParseNumber (p ++ c :: rest)
        = if IsWhitespace c = true then .ok (buf, p.length + 1) else .error p.length) := by
  have wc : IsWhitespace ',' = false := by decide
  have gc : IsDigit ',' = false := by decide
  have hfact := numberLoop_steps p .START [] st buf hscan (c :: rest) 0
  unfold ParseNumber
  rw [hfact, Nat.zero_add]
  refine ⟨?_, ?_, ?_⟩
  · rintro (rfl | rfl) <;>
    · by_cases hw : IsWhitespace c = true
      · simp [numberLoop, numberComplete, h1, h2, h3, h4, hw]
      · by_cases hc : c = ','
        · simp [numberLoop, numberComplete, wc, gc, h1, h2, h3, h4, hw, hc]
        · simp [numberLoop, numberComplete, wc, gc, h1, h2, h3, h4, hw, hc]
  · rintro rfl
    by_cases hw : IsWhitespace c = true
    · simp [numberLoop, numberComplete, numberLoop_completed, h1, h2, h3, h4, hw]
    · simp [numberLoop, numberComplete, h1, h2, h3, h4, hw]
  · rintro rfl
    by_cases hw : IsWhitespace c = true
    · simp [numberLoop, numberComplete, numberLoop_completed, h1, h2, h3, h4, hw]
    · simp [numberLoop, numberComplete, h1, h2, h3, h4, hw]

/-- Claim C5, amended, witness: the theorem instantiated at four numerals,
one per state — the repository's own test numeral `3.14e-10` (exponent-digit
state) and `3.14` (fraction-digit state) followed by `a`, the integer numeral
`12` followed by `a` and by a space, and the lone `0` followed by `,`. -/
theorem c5_delimiter_by_state_witness :
    (numberSteps ['3', '.', '1', '4', 'e', '-', '1', '0'] .START []
        = some (.WAIT_E_DIGIT_END, ['3', '.', '1', '4', 'e', '-', '1', '0'])
      ∧ numberSteps ['3', '.', '1', '4'] .START [] = some (.WAIT_FRACTION_DIGIT_END, ['3', '.', '1', '4'])
      ∧ numberSteps ['1', '2'] .START [] = some (.WAIT_DIGIT2, ['1', '2'])
      ∧ numberSteps ['0'] .START [] = some (.FRACTION, ['0'])
      ∧ IsDigit 'a' = false ∧ IsDigit ' ' = false ∧ IsDigit ',' = false)
  ∧ (ParseNumber ['3', '.', '1', '4', 'e', '-', '1', '0', 'a'] = .error 8
      ∧ ParseNumber ['3', '.', '1', '4', 'a'] = .error 4
      ∧ ParseNumber ['1', '2', 'a'] = .ok (['1', '2'], 2)
      ∧ ParseNumber ['1', '2', ' '] = .ok (['1', '2'], 3)
      ∧ ParseNumber ['0', ','] = .error 1) := by
  refine ⟨⟨rfl, rfl, rfl, rfl, by decide, by decide, by decide⟩, ?_, ?_, ?_, ?_, ?_⟩
  · simpa using (c5_delimiter_by_state ['3', '.', '1', '4', 'e', '-', '1', '0'] _ _ 'a' [] rfl
      (by decide) (by decide) (by decide) (by decide)).1 (Or.inr rfl)
  · simpa using (c5_delimiter_by_state ['3', '.', '1', '4'] _ _ 'a' [] rfl
      (by decide) (by decide) (by decide) (by decide)).1 (Or.inl rfl)
  · simpa using (c5_delimiter_by_state ['1', '2'] _ _ 'a' [] rfl
      (by decide) (by decide) (by decide) (by decide)).2.1 rfl
  · simpa using (c5_delimiter_by_state ['1', '2'] _ _ ' ' [] rfl
      (by decide) (by decide) (by decide) (by decide)).2.1 rfl
  · simpa using (c5_delimiter_by_state ['0'] _ _ ',' [] rfl
      (by decide) (by decide) (by decide) (by decide)).2.2 rfl

/-- Claim C6: a numeral whose first digit is a leading `0` immediately
followed by another digit `d` fails with a `ParseError` whose offset is the
offset of `d` (after any leading whitespace and an optional minus sign);
in particular `01` fails at offset 1. -/
theorem c6_leading_zero (pre : List charT) (m : Bool) (d : charT) (rest : List charT)
    (hpre : ∀ c ∈ pre, IsWhitespace c = true) (hd : IsDigit d = true) :
    ParseNumber (pre ++ (if m then ['-'] else []) ++ '0' :: d :: rest)
      = .error (pre.length + (if m then 1 else 0) + 1) := by
  obtain ⟨h1, h2, h3, -⟩ := IsDigit_ne hd
  have h0 := IsDigit_not_ws hd
  have w0 : IsWhitespace '0' = false := by decide
  have wm : IsWhitespace '-' = false := by decide
  have g0 : IsDigit '0' = true := by decide
  unfold ParseNumber
  rw [List.append_assoc, numberLoop_ws pre hpre]
  cases m <;>
    simp [numberLoop, numberComplete, w0, wm, g0, h0, h1, h2, h3]

/-- Claim C6, witness: the input `01` itself, failing at offset 1. -/
theorem c6_leading_zero_witness :
    ((∀ c ∈ ([] : List charT), IsWhitespace c = true) ∧ IsDigit '1' = true)
  ∧ ParseNumber ['0', '1'] = .error 1 :=
  ⟨⟨by simp, by decide⟩, by
    simpa using c6_leading_zero [] false '1' [] (by simp) (by decide)⟩

/-- Claim C7: whenever the string scanner runs off the end of the input with
the machine still short of COMPLETED (no closing quote seen), `_ParseString`
throws a `ParseError` whose offset equals the number of characters scanned,
i.e. the whole input length. -/
theorem c7_unterminated (s : List charT) (st : SStatus) (acc : List charT)
    (h : stringLoopFull s .WAIT_QUOT1 [] 0 = (st, acc, s.length))
    (hst : st ≠ .COMPLETED) :
    ParseString s = .error s.length := by
  unfold ParseString
  rw [h]
  cases st <;> simp_all

/-- Claim C7, witness: the 5-character input `"what` (no closing quote) ends
in WAIT_QUOT2 at position 5 and fails with offset 5. -/
theorem c7_unterminated_witness :
    (stringLoopFull ['\"', 'w', 'h', 'a', 't'] .WAIT_QUOT1 [] 0
        = (.WAIT_QUOT2, ['w', 'h', 'a', 't'], 5)
      ∧ SStatus.WAIT_QUOT2 ≠ .COMPLETED)
  ∧ ParseString ['\"', 'w', 'h', 'a', 't'] = .error 5 :=
  ⟨⟨rfl, by decide⟩, by
    simpa using c7_unterminated ['\"', 'w', 'h', 'a', 't'] .WAIT_QUOT2 ['w', 'h', 'a', 't']
      rfl (by decide)⟩

/-- Claim C9: prefixing a successfully parsed string with whitespace still
succeeds (the quote is found after skipping it in WAIT_QUOT1), yields the
same string value, and the returned count grows by exactly the length of the
whitespace skipped. -/
theorem c9_leading_ws (ws s v : List charT) (n : Nat)
    (hws : ∀ c ∈ ws, IsWhitespace c = true)
    (h : ParseString s = .ok (v, n)) :
    ParseString (ws ++ s) = .ok (v, n + ws.length) := by
  rcases hr : stringLoopFull s .WAIT_QUOT1 [] 0 with ⟨st, res, p⟩
  unfold ParseString at h ⊢
  rw [hr] at h
  cases st <;> simp at h
  obtain ⟨rfl, rfl⟩ := h
  rw [stringLoopFull_ws ws hws s [] 0]
  have hsh := stringLoopFull_shift s .WAIT_QUOT1 [] 0 ws.length
  rw [show 0 + ws.length = ws.length + 0 from by omega, hsh, hr]
  simp [Nat.add_comm]

/-- Claim C9, witness: one space before `"a"`; the count grows from 3 to 4. -/
theorem c9_leading_ws_witness :
    ((∀ c ∈ [' '], IsWhitespace c = true) ∧ ParseString ['\"', 'a', '\"'] = .ok (['a'], 3))
  ∧ ParseString [' ', '\"', 'a', '\"'] = .ok (['a'], 4) :=
  ⟨⟨by decide, rfl⟩, by
    simpa using c9_leading_ws [' '] ['\"', 'a', '\"'] ['a'] 3 (by decide) rfl⟩

end Fjson
